import Mathlib

/-!
Verification of the environment-specification core of `conda_kapsel`
(`src/conda_kapsel/env_spec.py`).

The development shallowly embeds the Python module:

* `EnvSpec` is the class of the same name; the optional parent object
  (`inherit_from`) makes it a nested inductive type.
* The effective (post-inheritance) lists are the Python properties
  `conda_packages`, `channels`, `pip_packages`; the stored own lists are the
  underscore-prefixed projections, as in the source.
* `hashlib.sha1` is embedded as a full executable SHA-1 over byte lists
  (`Nat` values below 256), checked against the FIPS 180 test vectors;
  the incremental `update` calls of the source become appends to a byte
  buffer, and `hexdigest` is `sha1_hex`.
* `difflib.ndiff` (a Python standard-library collaborator) is embedded as a
  longest-common-subsequence line diff producing the documented delta
  markers: unchanged lines prefixed by two spaces, removals by a minus sign
  and a space, insertions by a plus sign and a space.  The intraline hint
  lines of the real implementation never occur for the inputs reasoned
  about below (equal sequences produce unchanged-marker lines only).
* File reading and the YAML parser `_load_string` / `_YAMLError` (from
  `conda_kapsel.yaml_file`, repository code that is not part of the
  verified sources) are modelled from the spec: the outcome of opening,
  reading and parsing a file is passed to the loader explicitly as a
  `LoadInput`, which is either a read failure, a parse failure, or a parsed
  top-level mapping of string keys to YAML values (`YVal`).
-/

/-! ### SHA-1 (the `hashlib.sha1` collaborator), over lists of bytes -/

/-- Truncation to a 32-bit word. -/
def w32 (n : Nat) : Nat := n % 4294967296

/-- Left rotation of a 32-bit word. -/
def rotl (b x : Nat) : Nat := w32 ((x <<< b) ||| (x >>> (32 - b)))

/-- The SHA-1 round function (FIPS 180, function f_t). -/
def sha1f (t b c d : Nat) : Nat :=
  if t < 20 then (b &&& c) ||| ((b ^^^ 4294967295) &&& d)
  else if t < 40 then b ^^^ c ^^^ d
  else if t < 60 then (b &&& c) ||| (b &&& d) ||| (c &&& d)
  else b ^^^ c ^^^ d

/-- The SHA-1 round constants (FIPS 180, K_t). -/
def sha1k (t : Nat) : Nat :=
  if t < 20 then 0x5A827999
  else if t < 40 then 0x6ED9EBA1
  else if t < 60 then 0x8F1BBCDC
  else 0xCA62C1D6

/-- Big-endian byte decomposition of `v` into `n` bytes. -/
def toBytesBE (n v : Nat) : List Nat :=
  (List.range n).map (fun i => (v >>> (8 * (n - 1 - i))) % 256)

/-- SHA-1 message padding: a 0x80 byte, zeros up to 56 mod 64, and the
bit length as a 64-bit big-endian quantity. -/
def sha1pad (msg : List Nat) : List Nat :=
  let zeros := (64 + 55 - (msg.length % 64)) % 64
  msg ++ [0x80] ++ List.replicate zeros 0 ++ toBytesBE 8 (msg.length * 8)

/-- Groups of four bytes into big-endian 32-bit words. -/
def bytesToWords : List Nat → List Nat
  | b0 :: b1 :: b2 :: b3 :: rest => (b0 <<< 24 ||| b1 <<< 16 ||| b2 <<< 8 ||| b3) :: bytesToWords rest
  | _ => []

/-- Splits a list into runs of 64 elements; the fuel argument (instantiated
with the length of the list) makes the recursion structural. -/
def chunks64 : Nat → List Nat → List (List Nat)
  | 0, _ => []
  | _, [] => []
  | fuel + 1, l => l.take 64 :: chunks64 fuel (l.drop 64)

/-- The 80-word SHA-1 message schedule of one block. -/
def sha1schedule (ws : List Nat) : List Nat :=
  (List.range 80).foldl
    (fun acc t =>
      if t < 16 then acc ++ [ws.getD t 0]
      else acc ++ [rotl 1 ((acc.getD (t - 3) 0) ^^^ (acc.getD (t - 8) 0) ^^^
                           (acc.getD (t - 14) 0) ^^^ (acc.getD (t - 16) 0))])
    []

/-- The five-word SHA-1 chaining state. -/
structure SHA1State where
  h0 : Nat
  h1 : Nat
  h2 : Nat
  h3 : Nat
  h4 : Nat

/-- The SHA-1 initialisation vector. -/
def sha1IV : SHA1State := ⟨0x67452301, 0xEFCDAB89, 0x98BADCFE, 0x10325476, 0xC3D2E1F0⟩

/-- The SHA-1 compression function for one 64-byte block. -/
def sha1block (st : SHA1State) (block : List Nat) : SHA1State :=
  let ws := sha1schedule (bytesToWords block)
  let fin := (List.range 80).foldl
    (fun (abcde : Nat × Nat × Nat × Nat × Nat) t =>
      let (a, b, c, d, e) := abcde
      let temp := w32 (rotl 5 a + sha1f t b c d + e + sha1k t + ws.getD t 0)
      (temp, a, rotl 30 b, c, d))
    (st.h0, st.h1, st.h2, st.h3, st.h4)
  let (a, b, c, d, e) := fin
  ⟨w32 (st.h0 + a), w32 (st.h1 + b), w32 (st.h2 + c), w32 (st.h3 + d), w32 (st.h4 + e)⟩

/-- SHA-1 digest of a byte list, as the list of its 20 digest bytes. -/
def sha1 (msg : List Nat) : List Nat :=
  let padded := sha1pad msg
  let st := (chunks64 padded.length padded).foldl sha1block sha1IV
  toBytesBE 4 st.h0 ++ toBytesBE 4 st.h1 ++ toBytesBE 4 st.h2 ++ toBytesBE 4 st.h3 ++
    toBytesBE 4 st.h4

/-- Lower-case hexadecimal digit. -/
def hexDigit (n : Nat) : Char := if n < 10 then Char.ofNat (48 + n) else Char.ofNat (87 + n)

/-- SHA-1 hex digest of a byte list (Python `hashlib.sha1(...).hexdigest()`). -/
def sha1_hex (msg : List Nat) : String :=
  String.mk ((sha1 msg).foldr (fun b acc => hexDigit (b / 16) :: hexDigit (b % 16) :: acc) [])

/-- UTF-8 encoding of one character, as bytes. -/
def utf8EncodeCharNat (c : Char) : List Nat :=
  let n := c.toNat
  if n < 0x80 then [n]
  else if n < 0x800 then [0xC0 ||| (n >>> 6), 0x80 ||| (n &&& 0x3F)]
  else if n < 0x10000 then
    [0xE0 ||| (n >>> 12), 0x80 ||| ((n >>> 6) &&& 0x3F), 0x80 ||| (n &&& 0x3F)]
  else
    [0xF0 ||| (n >>> 18), 0x80 ||| ((n >>> 12) &&& 0x3F), 0x80 ||| ((n >>> 6) &&& 0x3F),
     0x80 ||| (n &&& 0x3F)]

/-- UTF-8 encoding of a string, as bytes (Python `s.encode("utf-8")`). -/
def utf8Bytes (s : String) : List Nat := (s.data.map utf8EncodeCharNat).flatten

set_option maxRecDepth 100000 in
/-- SHA-1 of the FIPS test vector "abc" (sanity anchor for the embedding). -/
theorem sha1_abc : sha1_hex (utf8Bytes "abc") = "a9993e364706816aba3e25717850c26c9cd0d89d" := by
  decide

/-! ### The `EnvSpec` class -/

/-- Stored state of `EnvSpec.__init__`: name, own conda packages, own channels, own
pip packages, optional description, optional parent name, optional parent
object.  The parent object makes the type a nested inductive. -/
inductive EnvSpec : Type where
  | mk (name : String) (conda_packages : List String) (channels : List String)
       (pip_packages : List String) (description : Option String)
       (inherit_from_name : Option String) (inherit_from : Option EnvSpec) : EnvSpec

/-- The `name` property. -/
def EnvSpec.name : EnvSpec → String
  | .mk n _ _ _ _ _ _ => n

/-- The stored own conda package list (`self._conda_packages`). -/
def EnvSpec._conda_packages : EnvSpec → List String
  | .mk _ cp _ _ _ _ _ => cp

/-- The stored own channel list (`self._channels`). -/
def EnvSpec._channels : EnvSpec → List String
  | .mk _ _ ch _ _ _ _ => ch

/-- The stored own pip package list (`self._pip_packages`). -/
def EnvSpec._pip_packages : EnvSpec → List String
  | .mk _ _ _ pp _ _ _ => pp

/-- The stored description (`self._description`). -/
def EnvSpec._description : EnvSpec → Option String
  | .mk _ _ _ _ d _ _ => d

/-- The `inherit_from_name` property. -/
def EnvSpec.inherit_from_name : EnvSpec → Option String
  | .mk _ _ _ _ _ ifn _ => ifn

/-- The `inherit_from` property. -/
def EnvSpec.inherit_from : EnvSpec → Option EnvSpec
  | .mk _ _ _ _ _ _ ifo => ifo

/-- The `description` property: the stored description, defaulting to the
name when absent. -/
def EnvSpec.description (s : EnvSpec) : String :=
  match s._description with
  | none => s.name
  | some d => d

/-- Function `_combine_keeping_last_duplicate(items1, items2)`: keep the elements of
`items1` whose key does not occur among the keys of `items2`, then append
`items2`.  The `key_func` parameter of the source defaults to the identity
function and every call site in the verified sources uses that default, so
it is specialised to the identity here. -/
def _combine_keeping_last_duplicate (items1 items2 : List String) : List String :=
  (items1.filter (fun item => ¬ item ∈ items2)) ++ items2

/-- The `conda_packages` property: the effective list.  The source computes
it via `_get_inherited`, which dispatches on the attribute
name with `getattr`; the dispatch is specialised per attribute here. -/
def EnvSpec.conda_packages : EnvSpec → List String
  | .mk _ cp _ _ _ _ none => cp
  | .mk _ cp _ _ _ _ (some parent) => _combine_keeping_last_duplicate parent.conda_packages cp

/-- The `channels` property: the effective channel list. -/
def EnvSpec.channels : EnvSpec → List String
  | .mk _ _ ch _ _ _ none => ch
  | .mk _ _ ch _ _ _ (some parent) => _combine_keeping_last_duplicate parent.channels ch

/-- The `pip_packages` property: the effective pip list. -/
def EnvSpec.pip_packages : EnvSpec → List String
  | .mk _ _ _ pp _ _ none => pp
  | .mk _ _ _ pp _ _ (some parent) => _combine_keeping_last_duplicate parent.pip_packages pp

/-- The `channels_and_packages_hash` property: a single SHA-1 digest fed the
UTF-8 bytes of each effective conda package, then each effective pip
package, then each effective channel, via incremental `update` calls (here:
appends to the byte buffer).  The source caches the result in
`self._channels_and_packages_hash`; the cache is pure memoization with no
observable effect and is dropped in the embedding. -/
def EnvSpec.channels_and_packages_hash (s : EnvSpec) : String :=
  let m : List Nat := []
  let m := s.conda_packages.foldl (fun buf p => buf ++ utf8Bytes p) m
  let m := s.pip_packages.foldl (fun buf p => buf ++ utf8Bytes p) m
  let m := s.channels.foldl (fun buf c => buf ++ utf8Bytes c) m
  sha1_hex m

/-- Constructor `EnvSpec.__init__` as a fallible function: the source asserts
`inherit_from is None or (inherit_from_name is not None and
inherit_from_name == inherit_from.name)`; a failed assertion stops
construction (modelled as `none`). -/
def EnvSpec.init (name : String) (conda_packages channels pip_packages : List String)
    (description inherit_from_name : Option String) (inherit_from : Option EnvSpec) :
    Option EnvSpec :=
  match inherit_from with
  | none => some (.mk name conda_packages channels pip_packages description inherit_from_name none)
  | some p =>
    match inherit_from_name with
    | none => none
    | some n =>
      if n = p.name then
        some (.mk name conda_packages channels pip_packages description (some n) (some p))
      else none

/-! ### Diff (`difflib.ndiff` collaborator and `EnvSpec.diff_from`) -/

/-- A longest common subsequence of two lines lists (the matching engine
behind the `difflib.ndiff` collaborator). -/
def lcs : List String → List String → List String
  | [], _ => []
  | _ :: _, [] => []
  | a :: as, b :: bs =>
    if a = b then a :: lcs as bs
    else
      let l1 := lcs (a :: as) bs
      let l2 := lcs as (b :: bs)
      if l2.length ≥ l1.length then l2 else l1
termination_by xs ys => xs.length + ys.length

/-- The `difflib.ndiff` collaborator: an LCS-based line diff emitting the
documented delta markers (two spaces for unchanged lines, minus for
removals, plus for insertions).  Equal sequences produce exactly their
lines with the unchanged marker; the intraline hint lines of the real
implementation do not occur for the inputs reasoned about below. -/
def ndiff : List String → List String → List String
  | [], ys => ys.map (fun y => "+ " ++ y)
  | x :: xs, [] => ("- " ++ x) :: ndiff xs []
  | x :: xs, y :: ys =>
    if x = y then ("  " ++ x) :: ndiff xs ys
    else if (lcs xs (y :: ys)).length ≥ (lcs (x :: xs) ys).length
    then ("- " ++ x) :: ndiff xs (y :: ys)
    else ("+ " ++ y) :: ndiff (x :: xs) ys
termination_by xs ys => xs.length + ys.length

/-- Python `sep.join(lines)`. -/
def joinWith (sep : String) : List String → String
  | [] => ""
  | [x] => x
  | x :: xs => x ++ sep ++ joinWith sep xs

/-- Method `EnvSpec.diff_from(old)`: diff each effective section of `old` against
this spec; the pip section, when its diff is non-empty, gets a "  pip:"
header and extra indentation, then the channels section likewise with a
"  channels:" header; the conda diff sits unlabeled between them; all the
lines are joined with newlines. -/
def EnvSpec.diff_from (s old : EnvSpec) : String :=
  let channels_diff := ndiff old.channels s.channels
  let conda_diff := ndiff old.conda_packages s.conda_packages
  let pip_diff := ndiff old.pip_packages s.pip_packages
  let pip_diff := if pip_diff ≠ [] then "  pip:" :: pip_diff.map (fun x => "    " ++ x) else pip_diff
  let channels_diff :=
    if channels_diff ≠ [] then "  channels:" :: channels_diff.map (fun x => "    " ++ x)
    else channels_diff
  joinWith "\n" (channels_diff ++ conda_diff ++ pip_diff)

/-! ### Serialization (`EnvSpec.to_json`) -/

/-- The JSON-like values emitted by `to_json` (strings, sequences, and
mappings with insertion-ordered keys). -/
inductive JsonVal : Type where
  | str (s : String) : JsonVal
  | arr (xs : List JsonVal) : JsonVal
  | obj (entries : List (String × JsonVal)) : JsonVal

/-- Method `EnvSpec.to_json`: a mapping (insertion-ordered, like a Python dict)
with a `packages` entry (the `conda_packages` property, with a trailing
`{pip: [...]}` mapping appended when the `pip_packages` property is
non-empty), a `channels` entry (the `channels` property), and an
`inherit_from` entry exactly when `inherit_from_name` is present. -/
def EnvSpec.to_json (s : EnvSpec) : List (String × JsonVal) :=
  let packages : List JsonVal := s.conda_packages.map JsonVal.str
  let pip_packages := s.pip_packages
  let packages :=
    if pip_packages ≠ [] then
      packages ++ [JsonVal.obj [("pip", JsonVal.arr (pip_packages.map JsonVal.str))]]
    else packages
  let channels : List JsonVal := s.channels.map JsonVal.str
  let result := [("packages", JsonVal.arr packages), ("channels", JsonVal.arr channels)]
  match s.inherit_from_name with
  | some n => result ++ [("inherit_from", JsonVal.str n)]
  | none => result

/-! ### External file loader and sync checker -/

/-- A parsed YAML value: scalar null, scalar string, sequence, or mapping
with string keys.  Modelled from the spec: the parser `_load_string` of
`conda_kapsel.yaml_file` is not among the verified sources; per the spec it
parses text to a nested mapping/sequence/scalar structure. -/
inductive YVal : Type where
  | ynull : YVal
  | ystr (s : String) : YVal
  | ylist (xs : List YVal) : YVal
  | ymap (entries : List (String × YVal)) : YVal

/-- Python truthiness of a YAML value: null, the empty string, the empty
sequence and the empty mapping are falsy. -/
def YVal.truthy : YVal → Bool
  | .ynull => false
  | .ystr s => !(s == "")
  | .ylist xs => !xs.isEmpty
  | .ymap es => !es.isEmpty

/-- The string content of a YAML value.  The spec fixes the input format of
the loader so that `name` and `prefix` hold strings; a non-string value in
those positions is outside the specified format (Python would pass the raw
object through, or fail with a type error at `os.path.basename`). -/
def YVal.asName : YVal → String
  | .ystr s => s
  | _ => ""

/-- Model of `os.path.basename` for POSIX paths: the part after the final slash. -/
def basename (p : String) : String :=
  String.mk (p.data.foldl (fun acc c => if c = '/' then [] else acc ++ [c]) [])

/-- The outcome of opening, reading and parsing the file handed to the
loader.  Modelled from the spec: file I/O and the YAML parser are
collaborators; `readError` is an `IOError` during open or read,
`parseError` a `_YAMLError` from `_load_string`, and `parsed` a
successfully parsed top-level mapping. -/
inductive LoadInput : Type where
  | readError : LoadInput
  | parseError : LoadInput
  | parsed (yaml : List (String × YVal)) : LoadInput

/-- Loader `_load_environment_yml(filename)`: `None` on read or parse failure;
otherwise the name falls back from a truthy `name` field to the basename of
a truthy `prefix` field to the basename of the file path, the
`dependencies` entries contribute plain strings as conda packages and the
string elements of `{pip: [...]}` mappings as pip packages, and the string
`channels` entries are kept, everything else being silently skipped. -/
def _load_environment_yml (filename : String) (input : LoadInput) : Option EnvSpec :=
  match input with
  | .readError => none
  | .parseError => none
  | .parsed yaml =>
    let name0 : Option YVal := yaml.lookup "name"
    let name1 : Option String :=
      match name0 with
      | some v => if v.truthy then some v.asName else none
      | none => none
    let name2 : Option String :=
      match name1 with
      | some s => some s
      | none =>
        match yaml.lookup "prefix" with
        | some pv => if pv.truthy then some (basename pv.asName) else none
        | none => none
    let name : String :=
      match name2 with
      | some s => if s = "" then basename filename else s
      | none => basename filename
    let raw_dependencies : List YVal :=
      match yaml.lookup "dependencies" with
      | some (.ylist xs) => xs
      | _ => []
    let raw_channels : List YVal :=
      match yaml.lookup "channels" with
      | some (.ylist xs) => xs
      | _ => []
    let pkgs : List String × List String := raw_dependencies.foldl
      (fun acc dep =>
        match dep with
        | .ystr s => (acc.1 ++ [s], acc.2)
        | .ymap entries =>
          match entries.lookup "pip" with
          | some (.ylist pips) =>
            (acc.1,
             acc.2 ++ pips.foldl (fun l pd => match pd with | .ystr s => l ++ [s] | _ => l) [])
          | _ => acc
        | _ => acc)
      ([], [])
    let channels : List String := raw_channels.foldl
      (fun acc ch => match ch with | .ystr s => acc ++ [s] | _ => acc) []
    some (.mk name pkgs.1 channels pkgs.2 none none none)

/-- Checker `_find_out_of_sync_environment_yml_spec(project_specs, filename)`:
`None` when the file does not load or some known spec matches the loaded
one on both name and hash; otherwise the loaded spec. -/
def _find_out_of_sync_environment_yml_spec (project_specs : List EnvSpec) (filename : String)
    (input : LoadInput) : Option EnvSpec :=
  match _load_environment_yml filename input with
  | none => none
  | some spec =>
    if project_specs.any (fun existing =>
        existing.name == spec.name &&
        existing.channels_and_packages_hash == spec.channels_and_packages_hash)
    then none
    else some spec

/-! ### Helper lemmas -/

/-- Feeding each string of a list into the running digest buffer appends
the concatenation of their UTF-8 bytes, with no delimiters. -/
theorem foldl_utf8_eq_flatten (l : List String) (init : List Nat) :
    l.foldl (fun buf p => buf ++ utf8Bytes p) init = init ++ (l.map utf8Bytes).flatten := by
  induction l generalizing init with
  | nil => simp
  | cons x xs ih => simp [ih, List.append_assoc]

/-- The byte stream the digest is fed: the UTF-8 bytes of every effective
conda package, then every effective pip package, then every effective
channel, in effective order, concatenated without delimiters. -/
def effectiveDigestInput (s : EnvSpec) : List Nat :=
  ((s.conda_packages ++ s.pip_packages ++ s.channels).map utf8Bytes).flatten

/-- The incremental `update` calls of `channels_and_packages_hash` feed the
digest exactly the undelimited concatenated byte stream. -/
theorem hash_eq_sha1_digest_input (s : EnvSpec) :
    s.channels_and_packages_hash = sha1_hex (effectiveDigestInput s) := by
  unfold EnvSpec.channels_and_packages_hash effectiveDigestInput
  simp [foldl_utf8_eq_flatten]

/-! ### C4: the hash is an undelimited SHA-1 over the effective lists -/

/-- C4: for every EnvSpec, `channels_and_packages_hash` is the hex digest
of one SHA-1 computation fed the UTF-8 bytes of each effective conda
package, then each effective pip package, then each effective channel,
each list in effective order with no delimiters between entries or lists;
consequently two specs whose concatenated byte streams agree hash
identically even when their per-position segmentations differ. -/
theorem c4_hash_is_undelimited_sha1 (s t : EnvSpec)
    (h : effectiveDigestInput s = effectiveDigestInput t) :
    s.channels_and_packages_hash = sha1_hex (effectiveDigestInput s) ∧
    s.channels_and_packages_hash = t.channels_and_packages_hash := by
  refine ⟨hash_eq_sha1_digest_input s, ?_⟩
  rw [hash_eq_sha1_digest_input s, hash_eq_sha1_digest_input t, h]

/-- Witness for C4 at the segmentation example of the claim: effective
conda lists `["ab", "c"]` and `["a", "bc"]` concatenate to the same bytes,
so the two specs hash identically. -/
theorem c4_hash_is_undelimited_sha1_witness :
    effectiveDigestInput (EnvSpec.mk "one" ["ab", "c"] [] [] none none none) =
      effectiveDigestInput (EnvSpec.mk "two" ["a", "bc"] [] [] none none none) ∧
    (EnvSpec.mk "one" ["ab", "c"] [] [] none none none).channels_and_packages_hash =
      (EnvSpec.mk "two" ["a", "bc"] [] [] none none none).channels_and_packages_hash :=
  ⟨by decide,
   (c4_hash_is_undelimited_sha1 (EnvSpec.mk "one" ["ab", "c"] [] [] none none none)
     (EnvSpec.mk "two" ["a", "bc"] [] [] none none none) (by decide)).2⟩

/-! ### C5: reordering an effective list and the hash -/

set_option maxRecDepth 100000 in
/-- C5 counterexample: the claim that every non-identity reordering of one
effective list changes the hash fails.  Swapping the effective conda list
`["a", "aa"]` to `["aa", "a"]` is a non-identity permutation (the lists
differ), yet both concatenate to the bytes of "aaa", so the hashes are
equal. -/
theorem c5_reorder_counterexample :
    (EnvSpec.mk "default" ["a", "aa"] [] [] none none none).conda_packages ≠
      (EnvSpec.mk "default" ["aa", "a"] [] [] none none none).conda_packages ∧
    ((EnvSpec.mk "default" ["a", "aa"] [] [] none none none).conda_packages).Perm
      ((EnvSpec.mk "default" ["aa", "a"] [] [] none none none).conda_packages) ∧
    (EnvSpec.mk "default" ["a", "aa"] [] [] none none none).channels_and_packages_hash =
      (EnvSpec.mk "default" ["aa", "a"] [] [] none none none).channels_and_packages_hash :=
  ⟨by decide, by decide, by decide⟩

set_option maxRecDepth 100000 in
/-- C5 amended: reordering one effective list affects the hash only through
the concatenated byte stream: two specs with the same concatenated stream
(such as a reordering of `["a", "aa"]` into `["aa", "a"]`) have equal
hashes, while a reordering that changes the stream can change the hash, as
the effective conda lists `["a", "b"]` and `["b", "a"]` do. -/
theorem c5_amended_reorder_changes_stream (s t : EnvSpec)
    (h : effectiveDigestInput s = effectiveDigestInput t) :
    s.channels_and_packages_hash = t.channels_and_packages_hash ∧
    (EnvSpec.mk "default" ["a", "b"] [] [] none none none).channels_and_packages_hash ≠
      (EnvSpec.mk "default" ["b", "a"] [] [] none none none).channels_and_packages_hash := by
  refine ⟨?_, by decide⟩
  rw [hash_eq_sha1_digest_input s, hash_eq_sha1_digest_input t, h]

/-- Witness for C5 (amended) at the concatenation-preserving reordering
`["a", "aa"]` versus `["aa", "a"]`. -/
theorem c5_amended_reorder_changes_stream_witness :
    (EnvSpec.mk "default" ["a", "aa"] [] [] none none none).channels_and_packages_hash =
      (EnvSpec.mk "default" ["aa", "a"] [] [] none none none).channels_and_packages_hash ∧
    (EnvSpec.mk "default" ["a", "b"] [] [] none none none).channels_and_packages_hash ≠
      (EnvSpec.mk "default" ["b", "a"] [] [] none none none).channels_and_packages_hash :=
  c5_amended_reorder_changes_stream (EnvSpec.mk "default" ["a", "aa"] [] [] none none none)
    (EnvSpec.mk "default" ["aa", "a"] [] [] none none none) (by decide)

/-! ### C3: override-by-key-wins-and-moves-to-end -/

/-- An element occurring exactly once in the appended own list occurs
exactly once in the combined list: its occurrences in the base list are
all filtered away. -/
theorem count_combine_eq_one (items1 items2 : List String) (x : String)
    (h : List.count x items2 = 1) :
    List.count x (_combine_keeping_last_duplicate items1 items2) = 1 := by
  have hx : x ∈ items2 := by
    by_contra hn
    rw [List.count_eq_zero.mpr hn] at h
    omega
  unfold _combine_keeping_last_duplicate
  rw [List.count_append]
  have h0 : List.count x (items1.filter (fun item => ¬ item ∈ items2)) = 0 := by
    apply List.count_eq_zero.mpr
    intro hmem
    have hpred := (List.mem_filter.mp hmem).2
    simp only [decide_not, Bool.not_eq_true', decide_eq_false_iff_not] at hpred
    exact hpred hx
  rw [h0, h]

/-- C3: for a child spec linked to its parent by `inherit_from`, each
effective list is the parent effective list with the entries whose key
recurs in the child own list removed, followed by the child own list in
child order; an element occurring in the parent effective list and exactly
once in the child own list therefore occurs exactly once in the child
effective list, at the position the child order dictates. -/
theorem c3_inherited_override_position (child parent : EnvSpec)
    (h : child.inherit_from = some parent) :
    (child.conda_packages =
        parent.conda_packages.filter (fun x => ¬ x ∈ child._conda_packages) ++
          child._conda_packages ∧
      ∀ x, x ∈ parent.conda_packages → List.count x child._conda_packages = 1 →
        List.count x child.conda_packages = 1) ∧
    (child.channels =
        parent.channels.filter (fun x => ¬ x ∈ child._channels) ++ child._channels ∧
      ∀ x, x ∈ parent.channels → List.count x child._channels = 1 →
        List.count x child.channels = 1) ∧
    (child.pip_packages =
        parent.pip_packages.filter (fun x => ¬ x ∈ child._pip_packages) ++
          child._pip_packages ∧
      ∀ x, x ∈ parent.pip_packages → List.count x child._pip_packages = 1 →
        List.count x child.pip_packages = 1) := by
  cases child with
  | mk n cp ch pp d ifn ifo =>
    simp only [EnvSpec.inherit_from] at h
    subst h
    simp only [EnvSpec.conda_packages, EnvSpec.channels, EnvSpec.pip_packages,
      EnvSpec._conda_packages, EnvSpec._channels, EnvSpec._pip_packages]
    exact ⟨⟨rfl, fun x _ hc => count_combine_eq_one _ _ _ hc⟩,
           ⟨rfl, fun x _ hc => count_combine_eq_one _ _ _ hc⟩,
           ⟨rfl, fun x _ hc => count_combine_eq_one _ _ _ hc⟩⟩

/-- Witness for C3: parent `["a", "b"]`, child own `["b", "c"]`; "b" is
dropped from the parent part and ends once, at the child position. -/
theorem c3_inherited_override_position_witness :
    (EnvSpec.mk "child" ["b", "c"] [] [] none (some "parent")
        (some (EnvSpec.mk "parent" ["a", "b"] [] [] none none none))).conda_packages =
      (EnvSpec.mk "parent" ["a", "b"] [] [] none none none).conda_packages.filter
          (fun x => ¬ x ∈ (EnvSpec.mk "child" ["b", "c"] [] [] none (some "parent")
            (some (EnvSpec.mk "parent" ["a", "b"] [] [] none none none)))._conda_packages) ++
        (EnvSpec.mk "child" ["b", "c"] [] [] none (some "parent")
          (some (EnvSpec.mk "parent" ["a", "b"] [] [] none none none)))._conda_packages ∧
    List.count "b" ((EnvSpec.mk "child" ["b", "c"] [] [] none (some "parent")
        (some (EnvSpec.mk "parent" ["a", "b"] [] [] none none none))).conda_packages) = 1 :=
  ⟨(c3_inherited_override_position
      (EnvSpec.mk "child" ["b", "c"] [] [] none (some "parent")
        (some (EnvSpec.mk "parent" ["a", "b"] [] [] none none none)))
      (EnvSpec.mk "parent" ["a", "b"] [] [] none none none) rfl).1.1,
   (c3_inherited_override_position
      (EnvSpec.mk "child" ["b", "c"] [] [] none (some "parent")
        (some (EnvSpec.mk "parent" ["a", "b"] [] [] none none none)))
      (EnvSpec.mk "parent" ["a", "b"] [] [] none none none) rfl).1.2 "b" (by decide) (by decide)⟩

/-! ### C1: what `to_json` emits -/

/-- C1 counterexample: `to_json` does not emit the own conda package list.
For a child (own conda list `["b"]`) inheriting from a parent with conda
list `["a"]`, the `packages` entry holds the effective list
`["a", "b"]`, not the own list `["b"]`. -/
theorem c1_to_json_counterexample :
    (EnvSpec.mk "child" ["b"] [] [] none (some "parent")
        (some (EnvSpec.mk "parent" ["a"] [] [] none none none))).to_json.lookup "packages" ≠
      some (JsonVal.arr
        (((EnvSpec.mk "child" ["b"] [] [] none (some "parent")
          (some (EnvSpec.mk "parent" ["a"] [] [] none none none)))._conda_packages).map
            JsonVal.str)) := by
  simp [EnvSpec.to_json, EnvSpec.conda_packages, EnvSpec.pip_packages, EnvSpec.channels,
    EnvSpec._conda_packages, EnvSpec.inherit_from_name, _combine_keeping_last_duplicate,
    List.lookup]

/-- C1 amended: `to_json` returns a mapping whose `packages` entry is the
effective (post-inheritance) conda package list of the spec, with a trailing
`{pip: [...]}` entry appended exactly when the *effective* pip list is
non-empty, and whose `channels` entry is the effective channel list; the
key `inherit_from` is present, bound to `inherit_from_name`, exactly when
`inherit_from_name` is present. -/
theorem c1_amended_to_json_effective (s : EnvSpec) :
    s.to_json.lookup "packages" =
      some (JsonVal.arr (s.conda_packages.map JsonVal.str ++
        (if s.pip_packages ≠ [] then
           [JsonVal.obj [("pip", JsonVal.arr (s.pip_packages.map JsonVal.str))]]
         else []))) ∧
    s.to_json.lookup "channels" = some (JsonVal.arr (s.channels.map JsonVal.str)) ∧
    ∀ n, (s.to_json.lookup "inherit_from" = some (JsonVal.str n) ↔
          s.inherit_from_name = some n) := by
  unfold EnvSpec.to_json
  cases hifn : s.inherit_from_name with
  | none =>
    by_cases hp : s.pip_packages = [] <;> simp [hp, List.lookup]
  | some m =>
    by_cases hp : s.pip_packages = [] <;> simp [hp, List.lookup, JsonVal.str.injEq, eq_comm]

/-- Witness for C1 (amended) at a concrete inheriting spec. -/
theorem c1_amended_to_json_effective_witness :
    (EnvSpec.mk "child" ["b"] [] ["p1"] none (some "parent")
        (some (EnvSpec.mk "parent" ["a"] [] [] none none none))).to_json.lookup "packages" =
      some (JsonVal.arr
        ((EnvSpec.mk "child" ["b"] [] ["p1"] none (some "parent")
            (some (EnvSpec.mk "parent" ["a"] [] [] none none none))).conda_packages.map
              JsonVal.str ++
         (if (EnvSpec.mk "child" ["b"] [] ["p1"] none (some "parent")
              (some (EnvSpec.mk "parent" ["a"] [] [] none none none))).pip_packages ≠ [] then
            [JsonVal.obj [("pip", JsonVal.arr
              ((EnvSpec.mk "child" ["b"] [] ["p1"] none (some "parent")
                (some (EnvSpec.mk "parent" ["a"] [] [] none none none))).pip_packages.map
                  JsonVal.str))]]
          else []))) :=
  (c1_amended_to_json_effective
    (EnvSpec.mk "child" ["b"] [] ["p1"] none (some "parent")
      (some (EnvSpec.mk "parent" ["a"] [] [] none none none)))).1

/-! ### C2: diff of a spec against itself -/

/-- The diff of a sequence against itself is its lines with the
unchanged marker, one per element. -/
theorem ndiff_self (l : List String) : ndiff l l = l.map (fun x => "  " ++ x) := by
  induction l with
  | nil => simp [ndiff]
  | cons x xs ih => simp [ndiff, ih]

/-- Joining lines whose first line is non-empty gives a non-empty string. -/
theorem joinWith_ne_empty (x : String) (xs : List String) (h : x.data ≠ []) :
    joinWith "\n" (x :: xs) ≠ "" := by
  cases xs with
  | nil =>
    intro he
    exact h (congrArg String.data he)
  | cons y ys =>
    intro he
    have hd : (x ++ "\n" ++ joinWith "\n" (y :: ys)).data = [] := congrArg String.data he
    rw [String.data_append, String.data_append] at hd
    rcases List.append_eq_nil.mp hd with ⟨hd1, -⟩
    rcases List.append_eq_nil.mp hd1 with ⟨hd2, -⟩
    exact h hd2

/-- A spec whose effective lists are not all empty has a non-empty diff
against itself: equal sections are not omitted but rendered as
unchanged-marker lines. -/
theorem diff_from_self_ne (s : EnvSpec)
    (h : ¬ (s.channels = [] ∧ s.conda_packages = [] ∧ s.pip_packages = [])) :
    s.diff_from s ≠ "" := by
  unfold EnvSpec.diff_from
  rw [ndiff_self, ndiff_self, ndiff_self]
  cases hch : s.channels with
  | cons c cs =>
    simp only [List.map_cons, ne_eq, reduceCtorEq, not_false_eq_true, if_true, List.cons_append]
    exact joinWith_ne_empty _ _ (by decide)
  | nil =>
    cases hcp : s.conda_packages with
    | cons p ps =>
      simp only [List.map_nil, List.map_cons, ne_eq, not_true_eq_false, if_false,
        List.nil_append, List.cons_append]
      apply joinWith_ne_empty
      rw [String.data_append]
      simp
    | nil =>
      cases hpp : s.pip_packages with
      | cons q qs =>
        simp only [List.map_nil, List.map_cons, ne_eq, not_true_eq_false, if_false,
          reduceCtorEq, not_false_eq_true, if_true, List.nil_append, List.cons_append]
        exact joinWith_ne_empty _ _ (by decide)
      | nil => exact absurd ⟨hch, hcp, hpp⟩ h

/-- C2 counterexample: a spec with a non-empty effective channel list and a
non-empty effective conda list diffed against itself yields a non-empty
string: the equal sections appear as unchanged-marker lines under their
headers instead of being omitted. -/
theorem c2_diff_self_counterexample :
    (EnvSpec.mk "default" ["numpy"] ["mychannel"] [] none none none).diff_from
      (EnvSpec.mk "default" ["numpy"] ["mychannel"] [] none none none) ≠ "" :=
  diff_from_self_ne (EnvSpec.mk "default" ["numpy"] ["mychannel"] [] none none none)
    (by decide)

/-- C2 amended: a spec diffed against itself yields the empty string
exactly when all three effective lists are empty; otherwise the equal
sections are rendered as unchanged-marker lines (with the channels and pip
headers when those sections are non-empty) rather than omitted. -/
theorem c2_amended_diff_self_empty_iff (s : EnvSpec) :
    s.diff_from s = "" ↔ (s.channels = [] ∧ s.conda_packages = [] ∧ s.pip_packages = []) := by
  constructor
  · intro he
    by_contra hn
    exact diff_from_self_ne s hn he
  · rintro ⟨h1, h2, h3⟩
    unfold EnvSpec.diff_from
    rw [ndiff_self, ndiff_self, ndiff_self, h1, h2, h3]
    rfl

/-- Witness for C2 (amended): the all-empty spec diffs emptily against
itself. -/
theorem c2_amended_diff_self_empty_iff_witness :
    (EnvSpec.mk "default" [] [] [] none none none).diff_from
      (EnvSpec.mk "default" [] [] [] none none none) = "" :=
  (c2_amended_diff_self_empty_iff (EnvSpec.mk "default" [] [] [] none none none)).mpr
    ⟨rfl, rfl, rfl⟩

/-! ### C6: the construction-time inheritance invariant -/

/-- C6: construction with a parent object whose name disagrees with
`inherit_from_name` (in particular with `inherit_from_name` absent) fails,
and every successfully constructed spec either has no parent object or has
`inherit_from_name` present and equal to the parent name.  The embedding
has no mutation, so the predicate holds for the whole lifetime of the
value. -/
theorem c6_constructor_invariant :
    (∀ (name : String) (cp ch pp : List String) (d ifn : Option String) (p : EnvSpec),
        ifn ≠ some p.name →
        EnvSpec.init name cp ch pp d ifn (some p) = none) ∧
    (∀ (name : String) (cp ch pp : List String) (d ifn : Option String)
        (ifo : Option EnvSpec) (s : EnvSpec),
        EnvSpec.init name cp ch pp d ifn ifo = some s →
        s.inherit_from = none ∨
          ∃ p, s.inherit_from = some p ∧ s.inherit_from_name = some p.name) := by
  constructor
  · intro name cp ch pp d ifn p hne
    cases ifn with
    | none => rfl
    | some n =>
      have h' : ¬ n = p.name := fun hEq => hne (by rw [hEq])
      simp only [EnvSpec.init, if_neg h']
  · intro name cp ch pp d ifn ifo s h
    cases ifo with
    | none =>
      simp only [EnvSpec.init, Option.some.injEq] at h
      subst h
      exact Or.inl rfl
    | some p =>
      cases ifn with
      | none => simp [EnvSpec.init] at h
      | some n =>
        simp only [EnvSpec.init] at h
        by_cases he : n = p.name
        · rw [if_pos he, Option.some.injEq] at h
          subst h
          exact Or.inr ⟨p, rfl, by rw [EnvSpec.inherit_from_name, he]⟩
        · rw [if_neg he] at h
          cases h

/-- Witness for C6: a parent named "y" with `inherit_from_name` "x" is
rejected at construction. -/
theorem c6_constructor_invariant_witness :
    some "x" ≠ some (EnvSpec.name (EnvSpec.mk "y" [] [] [] none none none)) ∧
    EnvSpec.init "child" [] [] [] none (some "x")
      (some (EnvSpec.mk "y" [] [] [] none none none)) = none :=
  ⟨by decide,
   c6_constructor_invariant.1 "child" [] [] [] none (some "x")
     (EnvSpec.mk "y" [] [] [] none none none) (by decide)⟩

/-! ### C7: read and parse failures yield the sentinel -/

/-- C7: for every file path, a read failure or a parse failure makes
`_load_environment_yml` return the "not loaded" sentinel `none`; the
embedding is a total function, so no other outcome (in particular no
propagated exception) is possible on those inputs. -/
theorem c7_load_failure_returns_none (filename : String) :
    _load_environment_yml filename LoadInput.readError = none ∧
    _load_environment_yml filename LoadInput.parseError = none :=
  ⟨rfl, rfl⟩

/-- Witness for C7 at a concrete path. -/
theorem c7_load_failure_returns_none_witness :
    _load_environment_yml "environment.yml" LoadInput.readError = none ∧
    _load_environment_yml "environment.yml" LoadInput.parseError = none :=
  c7_load_failure_returns_none "environment.yml"

/-! ### C8 and C10: the name fallback chain of the loader -/

/-- The `name` field of a parsed mapping is absent, or present but falsy
(so the Python `if not name` test fires). -/
def nameFieldFalsy (yaml : List (String × YVal)) : Prop :=
  match yaml.lookup "name" with
  | none => True
  | some v => v.truthy = false

/-- The `prefix` field of a parsed mapping is absent, or present but falsy
(so the Python presence-and-truthiness test on the prefix field fails). -/
def prefixFieldFalsy (yaml : List (String × YVal)) : Prop :=
  match yaml.lookup "prefix" with
  | none => True
  | some v => v.truthy = false

/-- C8: the loaded name follows the fallback order: a truthy string `name`
field wins; otherwise the basename of a truthy `prefix` field (when that
basename is itself non-empty); otherwise the basename of the file path; in
particular `prefix: /opt/envs/myenv` with no `name` yields `myenv`. -/
theorem c8_loader_name_fallback :
    (∀ (yaml : List (String × YVal)) (filename n : String),
        yaml.lookup "name" = some (YVal.ystr n) → n ≠ "" →
        (_load_environment_yml filename (.parsed yaml)).map EnvSpec.name = some n) ∧
    (∀ (yaml : List (String × YVal)) (filename p : String),
        nameFieldFalsy yaml → yaml.lookup "prefix" = some (YVal.ystr p) → p ≠ "" →
        basename p ≠ "" →
        (_load_environment_yml filename (.parsed yaml)).map EnvSpec.name =
          some (basename p)) ∧
    (∀ (yaml : List (String × YVal)) (filename : String),
        nameFieldFalsy yaml → prefixFieldFalsy yaml →
        (_load_environment_yml filename (.parsed yaml)).map EnvSpec.name =
          some (basename filename)) ∧
    (_load_environment_yml "environment.yml"
        (.parsed [("prefix", YVal.ystr "/opt/envs/myenv")])).map EnvSpec.name =
      some "myenv" := by
  refine ⟨?_, ?_, ?_, rfl⟩
  · intro yaml filename n h hn
    simp [_load_environment_yml, h, YVal.truthy, YVal.asName, hn, EnvSpec.name]
  · intro yaml filename p hf h hp hbp
    cases hlk : yaml.lookup "name" with
    | none =>
      simp [_load_environment_yml, hlk, h, YVal.truthy, YVal.asName, hp, hbp, EnvSpec.name]
    | some v =>
      have hfv : v.truthy = false := by
        simpa [nameFieldFalsy, hlk] using hf
      simp only [_load_environment_yml, hlk, h, hfv]
      simp [YVal.truthy, YVal.asName, hp, hbp, EnvSpec.name]
  · intro yaml filename hf hpf
    cases hlk : yaml.lookup "name" with
    | none =>
      cases hlp : yaml.lookup "prefix" with
      | none => simp [_load_environment_yml, hlk, hlp, EnvSpec.name]
      | some w =>
        have hw : w.truthy = false := by
          simpa [prefixFieldFalsy, hlp] using hpf
        simp only [_load_environment_yml, hlk, hlp, hw]
        simp [EnvSpec.name]
    | some v =>
      have hfv : v.truthy = false := by
        simpa [nameFieldFalsy, hlk] using hf
      cases hlp : yaml.lookup "prefix" with
      | none =>
        simp only [_load_environment_yml, hlk, hlp, hfv]
        simp [EnvSpec.name]
      | some w =>
        have hw : w.truthy = false := by
          simpa [prefixFieldFalsy, hlp] using hpf
        simp only [_load_environment_yml, hlk, hlp, hfv, hw]
        simp [EnvSpec.name]

/-- Witness for C8 at the scenario of the claim. -/
theorem c8_loader_name_fallback_witness :
    (_load_environment_yml "environment.yml"
        (.parsed [("prefix", YVal.ystr "/opt/envs/myenv")])).map EnvSpec.name =
      some (basename "/opt/envs/myenv") :=
  c8_loader_name_fallback.2.1 [("prefix", YVal.ystr "/opt/envs/myenv")] "environment.yml"
    "/opt/envs/myenv" trivial rfl (by decide) (by decide)

/-- C10: a `name` field that is present but falsy (the empty string or
null) is treated like an absent `name`: the loader falls through to the
`prefix` basename and then to the file-path basename. -/
theorem c10_falsy_name_falls_through :
    (∀ (yaml : List (String × YVal)) (filename : String) (v : YVal) (p : String),
        yaml.lookup "name" = some v → v.truthy = false →
        yaml.lookup "prefix" = some (YVal.ystr p) → p ≠ "" → basename p ≠ "" →
        (_load_environment_yml filename (.parsed yaml)).map EnvSpec.name =
          some (basename p)) ∧
    (_load_environment_yml "environment.yml"
        (.parsed [("name", YVal.ystr ""), ("prefix", YVal.ystr "/opt/envs/myenv")])).map
        EnvSpec.name = some "myenv" ∧
    (_load_environment_yml "environment.yml"
        (.parsed [("name", YVal.ynull), ("prefix", YVal.ystr "/opt/envs/myenv")])).map
        EnvSpec.name = some "myenv" := by
  refine ⟨?_, rfl, rfl⟩
  intro yaml filename v p hv hfalsy h hp hbp
  simp only [_load_environment_yml, hv, h, hfalsy]
  simp [YVal.truthy, YVal.asName, hp, hbp, EnvSpec.name]

/-- Witness for C10 at the empty-string name. -/
theorem c10_falsy_name_falls_through_witness :
    (_load_environment_yml "environment.yml"
        (.parsed [("name", YVal.ystr ""), ("prefix", YVal.ystr "/opt/envs/myenv")])).map
        EnvSpec.name = some (basename "/opt/envs/myenv") :=
  c10_falsy_name_falls_through.1
    [("name", YVal.ystr ""), ("prefix", YVal.ystr "/opt/envs/myenv")] "environment.yml"
    (YVal.ystr "") "/opt/envs/myenv" rfl rfl rfl (by decide) (by decide)

/-! ### C9: the sync checker -/

/-- C9: the sync checker reports "no out-of-sync spec" exactly when the
external file fails to load or some known spec matches the loaded one on
both name and hash; when the file loads and no known spec matches on both,
the loaded spec is returned as the out-of-sync candidate. -/
theorem c9_find_out_of_sync (specs : List EnvSpec) (filename : String) (input : LoadInput) :
    (_find_out_of_sync_environment_yml_spec specs filename input = none ↔
      _load_environment_yml filename input = none ∨
      ∃ s, _load_environment_yml filename input = some s ∧
        ∃ e ∈ specs, e.name = s.name ∧
          e.channels_and_packages_hash = s.channels_and_packages_hash) ∧
    (∀ s, _load_environment_yml filename input = some s →
      (¬ ∃ e ∈ specs, e.name = s.name ∧
          e.channels_and_packages_hash = s.channels_and_packages_hash) →
      _find_out_of_sync_environment_yml_spec specs filename input = some s) := by
  cases hload : _load_environment_yml filename input with
  | none =>
    constructor
    · simp [_find_out_of_sync_environment_yml_spec, hload]
    · intro s hs
      exact Option.noConfusion hs
  | some s0 =>
    have hmatch : (specs.any (fun existing =>
        existing.name == s0.name &&
        existing.channels_and_packages_hash == s0.channels_and_packages_hash) = true) ↔
        ∃ e ∈ specs, e.name = s0.name ∧
          e.channels_and_packages_hash = s0.channels_and_packages_hash := by
      simp [List.any_eq_true]
    constructor
    · by_cases hany : specs.any (fun existing =>
          existing.name == s0.name &&
          existing.channels_and_packages_hash == s0.channels_and_packages_hash) = true
      · simp only [_find_out_of_sync_environment_yml_spec, hload, hany, if_true]
        simp only [true_iff]
        exact Or.inr ⟨s0, rfl, hmatch.mp hany⟩
      · rw [Bool.not_eq_true] at hany
        simp only [_find_out_of_sync_environment_yml_spec, hload, hany,
          Bool.false_eq_true, if_false]
        constructor
        · intro hc
          exact Option.noConfusion hc
        · intro hc
          rcases hc with hc | ⟨s, hs, he⟩
          · exact Option.noConfusion hc
          · rw [Option.some.injEq] at hs
            subst hs
            rw [hmatch.mpr he] at hany
            exact Option.noConfusion (congrArg (fun b => cond b (some s0) none) hany)
    · intro s hs hne
      rw [Option.some.injEq] at hs
      subst hs
      have hany : (specs.any (fun existing =>
          existing.name == s0.name &&
          existing.channels_and_packages_hash == s0.channels_and_packages_hash)) = false := by
        rw [← Bool.not_eq_true]
        intro hc
        exact hne (hmatch.mp hc)
      simp only [_find_out_of_sync_environment_yml_spec, hload, hany,
        Bool.false_eq_true, if_false]

/-- Witness for C9: with no known specs, a loadable file comes back as the
out-of-sync candidate. -/
theorem c9_find_out_of_sync_witness :
    _find_out_of_sync_environment_yml_spec [] "environment.yml" (.parsed []) =
      some (EnvSpec.mk "environment.yml" [] [] [] none none none) :=
  (c9_find_out_of_sync [] "environment.yml" (.parsed [])).2
    (EnvSpec.mk "environment.yml" [] [] [] none none none) rfl (by simp)
